import Mathlib

/- Formal model of the wxplot plotting engine (src/plotcanvas.py and
src/wxplot/polyobjects.py).  Floating-point arithmetic of the source is
modelled by exact rational arithmetic over ℚ; NaN/Infinity do not exist in
this model, so the source's NaN/Inf filtering steps are identities here.
Drawing-context (wx.DC) side effects are external I/O and are not part of
the model; functions that draw return the geometric data they would hand to
the DC. -/

namespace Wxplot

/-- Insertion of a value into an ascending-sorted list, keeping it sorted. -/
def insertAsc (x : ℚ) : List ℚ → List ℚ
  | [] => [x]
  | y :: ys => if x ≤ y then x :: y :: ys else y :: insertAsc x ys

/-- Ascending sort of a rational list; models the sort performed internally
by numpy's percentile/median routines. -/
def sortAsc (l : List ℚ) : List ℚ := l.foldr insertAsc []

/-- Minimum of a list, modelling `np.min` / `ndarray.min`.  The source raises
on an empty array; the model returns 0 there (all uses are on nonempty data). -/
def listMin : List ℚ → ℚ
  | [] => 0
  | x :: xs => xs.foldl min x

/-- Maximum of a list, modelling `np.max` / `ndarray.max`. -/
def listMax : List ℚ → ℚ
  | [] => 0
  | x :: xs => xs.foldl max x

/-- Linear-interpolation percentile, modelling `np.percentile(data, p)` with
the default interpolation: virtual index `h = (n-1)*p/100` into the sorted
data, then linear interpolation between the neighbouring order statistics. -/
def percentile (data : List ℚ) (p : ℚ) : ℚ :=
  let s := sortAsc data
  let n := s.length
  let h := ((n : ℚ) - 1) * p / 100
  let i : ℕ := ⌊h⌋.toNat
  let lo := s.getD i 0
  let hi := s.getD (i + 1) lo
  lo + (h - (i : ℚ)) * (hi - lo)

/-- Box-plot summary record, modelling the `BPData` namedtuple
`(min, low_whisker, q25, median, q75, high_whisker, max)` of
wxplot/polyobjects.py. -/
structure BPData where
  min : ℚ
  low_whisker : ℚ
  q25 : ℚ
  median : ℚ
  q75 : ℚ
  high_whisker : ℚ
  max : ℚ
  deriving DecidableEq, Repr

/-- PolyBoxPlot.calcBpData: descriptive statistics of the (cleaned) sample.
`_clean_data` removes NaN/Inf, which is the identity over ℚ. -/
def calcBpData (data : List ℚ) : BPData :=
  let min_data := listMin data
  let max_data := listMax data
  let q25 := percentile data 25
  let q75 := percentile data 75
  let iqr := q75 - q25
  let low_whisker := listMin (data.filter (fun x => decide (q25 - 3/2 * iqr ≤ x)))
  let high_whisker := listMax (data.filter (fun x => decide (x ≤ q75 + 3/2 * iqr)))
  let median := percentile data 50
  ⟨min_data, low_whisker, q25, median, q75, high_whisker, max_data⟩

/-- PolyBoxPlot.calcOutliers: the sample values strictly outside the
whiskers computed by calcBpData. -/
def calcOutliers (bp : BPData) (data : List ℚ) : List ℚ :=
  data.filter (fun x => decide (bp.high_whisker < x) || decide (x < bp.low_whisker))

/-- The transform state `(self._pointScale, self._pointShift)` that
PlotCanvas._Draw stores for mouse-event coordinate conversion. -/
structure PointTransform where
  scale : ℚ × ℚ
  shift : ℚ × ℚ
  deriving DecidableEq

/-- PlotCanvas.PositionUserToScreen: `userPos * self._pointScale + self._pointShift`,
componentwise on the 2-vector. -/
def PositionUserToScreen (t : PointTransform) (p : ℚ × ℚ) : ℚ × ℚ :=
  (p.1 * t.scale.1 + t.shift.1, p.2 * t.scale.2 + t.shift.2)

/-- PlotCanvas.PositionScreenToUser: `(screenPos - self._pointShift) / self._pointScale`,
componentwise on the 2-vector. -/
def PositionScreenToUser (t : PointTransform) (p : ℚ × ℚ) : ℚ × ℚ :=
  ((p.1 - t.shift.1) / t.scale.1, (p.2 - t.shift.2) / t.scale.2)

/-- Axis specification: the values accepted for `self._xSpec`/`self._ySpec`
by PlotCanvas._axisInterval — the strings 'none', 'min', 'auto', a numeric
tick count, or an explicit (min, max) tuple.  Other Python values raise
ValueError and are not representable here. -/
inductive AxisSpec where
  | nospec : AxisSpec
  | minspec : AxisSpec
  | count : ℚ → AxisSpec
  | auto : AxisSpec
  | pair : ℚ × ℚ → AxisSpec
  deriving DecidableEq

/-- Python float modulo `a % b`: the remainder with the sign of the divisor,
`a - b * ⌊a / b⌋`. -/
def pymod (a b : ℚ) : ℚ := a - b * ⌊a / b⌋

/-- Grid exponent of the 'auto' branch of PlotCanvas._axisInterval:
`power = floor(log10 range)`, reduced by one when the fractional part of
`log10 range` is at most 0.05.  For positive rational range,
`Int.log 10 range` is `floor (log10 range)`, and the fractional-part test
`log10 range - floor (log10 range) ≤ 1/20` is equivalent to the decidable
comparison `range ^ 20 ≤ 10 ^ (20 * power + 1)` used here. -/
def autoPower (range : ℚ) : ℤ :=
  let power := Int.log 10 range
  if range ^ 20 ≤ 10 ^ (20 * power + 1) then power - 1 else power

/-- Grid step `10.0 ** power` of the 'auto' branch. -/
def autoGrid (range : ℚ) : ℚ := (10 : ℚ) ^ autoPower range

/-- PlotCanvas._axisInterval: resolve the displayed axis range from a spec
and the data bounds. -/
def axisInterval (spec : AxisSpec) (lower upper : ℚ) : ℚ × ℚ :=
  match spec with
  | .nospec | .minspec | .count _ =>
      if lower = upper then (lower - 1/2, upper + 1/2) else (lower, upper)
  | .auto =>
      let range := upper - lower
      if range = 0 then (lower - 1/2, upper + 1/2)
      else
        let grid := autoGrid range
        let lower2 := lower - pymod lower grid
        let m := pymod upper grid
        let upper2 := if m = 0 then upper else upper - m + grid
        (lower2, upper2)
  | .pair p =>
      if p.1 ≤ p.2 then (p.1, p.2) else (p.2, p.1)

/-- Subtracting the Python modulo leaves the greatest aligned value below a. -/
theorem sub_pymod_eq (a b : ℚ) : a - pymod a b = b * ⌊a / b⌋ := by
  unfold pymod; ring

/-- The aligned value `b * ⌊a / b⌋` is at most a, for positive b. -/
theorem mul_floor_div_le (a b : ℚ) (hb : 0 < b) : b * ⌊a / b⌋ ≤ a := by
  have hfl : ((⌊a / b⌋ : ℤ) : ℚ) ≤ a / b := Int.floor_le _
  have h1 : b * ((⌊a / b⌋ : ℤ) : ℚ) ≤ b * (a / b) :=
    mul_le_mul_of_nonneg_left hfl (le_of_lt hb)
  have h2 : b * (a / b) = a := by field_simp
  linarith

/-- The Python modulo is below the (positive) divisor. -/
theorem pymod_lt (a b : ℚ) (hb : 0 < b) : pymod a b < b := by
  have hfl : a / b < (⌊a / b⌋ : ℤ) + 1 := Int.lt_floor_add_one _
  have h1 : b * (a / b) < b * (((⌊a / b⌋ : ℤ) : ℚ) + 1) :=
    (mul_lt_mul_left hb).mpr (by exact_mod_cast hfl)
  have h2 : b * (a / b) = a := by field_simp
  unfold pymod
  nlinarith

/-- Claim C3: for lower < upper, _axisInterval('auto', lower, upper) returns
(a, b) with a ≤ lower, b ≥ upper, both multiples of the grid 10^power with
power as computed by autoPower (floor of log10 of the range, reduced by one
when the fractional part of that log is at most 0.05); and for lower = upper
it returns (lower - 0.5, upper + 0.5). -/
theorem claim3_axisInterval_auto (lower upper : ℚ) (h : lower < upper) :
    (axisInterval .auto lower upper).1 ≤ lower ∧
    upper ≤ (axisInterval .auto lower upper).2 ∧
    (∃ i : ℤ, (axisInterval .auto lower upper).1 = i * autoGrid (upper - lower)) ∧
    (∃ j : ℤ, (axisInterval .auto lower upper).2 = j * autoGrid (upper - lower)) ∧
    (∀ c : ℚ, axisInterval .auto c c = (c - 1/2, c + 1/2)) := by
  have hg : (0 : ℚ) < autoGrid (upper - lower) := zpow_pos (by norm_num) _
  have hr : ¬(upper - lower = 0) := sub_ne_zero.mpr (ne_of_gt h)
  have heq : axisInterval .auto lower upper =
      (lower - pymod lower (autoGrid (upper - lower)),
       if pymod upper (autoGrid (upper - lower)) = 0 then upper
       else upper - pymod upper (autoGrid (upper - lower)) + autoGrid (upper - lower)) := by
    simp only [axisInterval, hr, if_false]
  rw [heq]
  set g := autoGrid (upper - lower) with hgdef
  refine ⟨?_, ?_, ?_, ?_, ?_⟩
  · rw [sub_pymod_eq]
    exact mul_floor_div_le lower g hg
  · dsimp only
    split_ifs with hm
    · exact le_refl upper
    · have := pymod_lt upper g hg
      linarith
  · exact ⟨⌊lower / g⌋, by rw [sub_pymod_eq]; ring⟩
  · dsimp only
    split_ifs with hm
    · refine ⟨⌊upper / g⌋, ?_⟩
      have h1 := sub_pymod_eq upper g
      rw [hm] at h1
      rw [mul_comm] at h1
      linarith
    · refine ⟨⌊upper / g⌋ + 1, ?_⟩
      have h1 := sub_pymod_eq upper g
      push_cast
      nlinarith [h1]
  · intro c
    simp [axisInterval]

/-- Witness for claim C3 at lower = 1, upper = 5. -/
theorem claim3_witness :
    (axisInterval .auto 1 5).1 ≤ 1 ∧
    (5 : ℚ) ≤ (axisInterval .auto 1 5).2 ∧
    (∃ i : ℤ, (axisInterval .auto 1 5).1 = i * autoGrid (5 - 1)) ∧
    (∃ j : ℤ, (axisInterval .auto 1 5).2 = j * autoGrid (5 - 1)) ∧
    (∀ c : ℚ, axisInterval .auto c c = (c - 1/2, c + 1/2)) :=
  claim3_axisInterval_auto 1 5 (by norm_num)

/-- Grid step chosen by PlotCanvas._ticks.  With an explicit numeric tick
count (xSpec/ySpec a number) the ideal spacing `(upper-lower)/numticks` is
used directly; otherwise the ideal is `(upper-lower)/7` and its mantissa is
snapped to the nearest of 1, 2, 5 in log distance (the loop over
`_multiples`).  Over exact arithmetic, with mantissa `m = ideal / 10^power`
in [1, 10), the float comparison `|fraction - log10 2| < fraction` holds
exactly when `m^2 > 2`, and `|fraction - log10 5| < |fraction - log10 2|`
exactly when `m^2 > 10`; so the snapped factor is 5 when
`ideal^2 > 10^(2*power+1)`, else 2 when `ideal^2 > 2 * 10^(2*power)`,
else 1 (ties are impossible since sqrt 2, sqrt 5, sqrt 10 are irrational). -/
def ticksGrid (lower upper : ℚ) (numticks : Option ℚ) : ℚ :=
  match numticks with
  | some n => (upper - lower) / n
  | none =>
    let ideal := (upper - lower) / 7
    let power : ℤ := Int.log 10 ideal
    let factor : ℚ :=
      if 10 ^ (2 * power + 1) < ideal ^ 2 then 5
      else if 2 * 10 ^ (2 * power) < ideal ^ 2 then 2
      else 1
    factor * 10 ^ power

/-- Tick-emission loop of PlotCanvas._ticks: emit t and step by grid while
`t ≤ upper`.  The source's `-0` normalisation is the identity over ℚ.  The
`0 < grid` guard makes the recursion well-founded; in the source the grid is
always positive when lower < upper. -/
def ticksAux (grid upper t : ℚ) : List ℚ :=
  if h : 0 < grid ∧ t ≤ upper then t :: ticksAux grid upper (t + grid) else []
  termination_by (⌊(upper - t) / grid⌋ + 1).toNat
  decreasing_by
    have hg := h.1
    have hne : grid ≠ 0 := ne_of_gt hg
    have hdiv : (upper - (t + grid)) / grid = (upper - t) / grid - 1 := by
      field_simp
      ring
    have hfl : ⌊(upper - (t + grid)) / grid⌋ = ⌊(upper - t) / grid⌋ - 1 := by
      rw [hdiv, Int.floor_sub_one]
    have hnn : (0 : ℤ) ≤ ⌊(upper - t) / grid⌋ :=
      Int.floor_nonneg.mpr (div_nonneg (by linarith [h.2]) (le_of_lt hg))
    rw [hfl]
    omega

/-- PlotCanvas._ticks, tick positions only (the label-format selection is
string output, not modelled): first tick `-grid * floor(-lower/grid)`, then
stepping by grid while at most upper. -/
def ticks (lower upper : ℚ) (numticks : Option ℚ) : List ℚ :=
  let grid := ticksGrid lower upper numticks
  ticksAux grid upper (-grid * ⌊-lower / grid⌋)

/-- Unfolding lemma: the loop stops when the guard fails. -/
theorem ticksAux_eq_nil (grid upper t : ℚ) (h : ¬(0 < grid ∧ t ≤ upper)) :
    ticksAux grid upper t = [] := by
  rw [ticksAux, dif_neg h]

/-- Unfolding lemma: the loop emits t and continues at t + grid. -/
theorem ticksAux_eq_cons (grid upper t : ℚ) (h : 0 < grid ∧ t ≤ upper) :
    ticksAux grid upper t = t :: ticksAux grid upper (t + grid) := by
  rw [ticksAux, dif_pos h]

/-- Every emitted tick lies between the start value and upper. -/
theorem ticksAux_mem (grid upper t : ℚ) :
    ∀ x ∈ ticksAux grid upper t, t ≤ x ∧ x ≤ upper := by
  induction t using ticksAux.induct grid upper with
  | case1 t h ih =>
    intro x hx
    rw [ticksAux_eq_cons grid upper t h] at hx
    rcases List.mem_cons.mp hx with rfl | hx
    · exact ⟨le_refl _, h.2⟩
    · have h2 := ih x hx
      exact ⟨by linarith [h.1, h2.1], h2.2⟩
  | case2 t h =>
    intro x hx
    rw [ticksAux_eq_nil grid upper t h] at hx
    simp at hx

/-- Successive emitted ticks differ by exactly grid. -/
theorem ticksAux_chain (grid upper t : ℚ) :
    List.Chain' (fun a b => b = a + grid) (ticksAux grid upper t) := by
  induction t using ticksAux.induct grid upper with
  | case1 t h ih =>
    rw [ticksAux_eq_cons grid upper t h]
    refine List.chain'_cons'.mpr ⟨?_, ih⟩
    intro y hy
    by_cases h2 : 0 < grid ∧ t + grid ≤ upper
    · rw [ticksAux_eq_cons grid upper (t + grid) h2] at hy
      simp only [List.head?_cons, Option.mem_def, Option.some.injEq] at hy
      linarith [hy]
    · rw [ticksAux_eq_nil grid upper (t + grid) h2] at hy
      simp at hy
  | case2 t h =>
    rw [ticksAux_eq_nil grid upper t h]
    exact List.chain'_nil

/-- The head of a nonempty tick run is the start value. -/
theorem ticksAux_head (grid upper t : ℚ) (h : 0 < grid ∧ t ≤ upper) :
    (ticksAux grid upper t).head? = some t := by
  rw [ticksAux_eq_cons grid upper t h]
  rfl

/-- The grid step is positive whenever lower < upper and any explicit
numeric tick count is positive. -/
theorem ticksGrid_pos (lower upper : ℚ) (numticks : Option ℚ)
    (h : lower < upper) (hn : 0 < numticks.getD 1) :
    0 < ticksGrid lower upper numticks := by
  cases numticks with
  | some n =>
    exact div_pos (by linarith) (by simpa using hn)
  | none =>
    have h10 : (0 : ℚ) < 10 ^ (Int.log 10 ((upper - lower) / 7)) :=
      zpow_pos (by norm_num) _
    simp only [ticksGrid]
    split_ifs <;> nlinarith

/-- Claim C4: for lower < upper (and a positive tick count when one is
given), _ticks produces a finite list of positions that is strictly
ascending, whose first element is `-grid * floor(-lower/grid)` whenever that
value is at most upper, whose consecutive elements step by exactly grid, and
all of whose elements lie in [lower, upper]. -/
theorem claim4_ticks (lower upper : ℚ) (numticks : Option ℚ)
    (h : lower < upper) (hn : 0 < numticks.getD 1) :
    List.Chain' (· < ·) (ticks lower upper numticks) ∧
    (∀ x ∈ ticks lower upper numticks, lower ≤ x ∧ x ≤ upper) ∧
    (-(ticksGrid lower upper numticks) *
        ⌊-lower / ticksGrid lower upper numticks⌋ ≤ upper →
      (ticks lower upper numticks).head? =
        some (-(ticksGrid lower upper numticks) *
          ⌊-lower / ticksGrid lower upper numticks⌋)) ∧
    List.Chain' (fun a b => b = a + ticksGrid lower upper numticks)
      (ticks lower upper numticks) := by
  have hg := ticksGrid_pos lower upper numticks h hn
  simp only [ticks]
  set g := ticksGrid lower upper numticks with hgdef
  have hlow : lower ≤ -g * ⌊-lower / g⌋ := by
    have h1 := mul_floor_div_le (-lower) g hg
    linarith
  refine ⟨?_, ?_, ?_, ?_⟩
  · exact (ticksAux_chain g upper _).imp (fun a b hab => by rw [hab]; linarith)
  · intro x hx
    have h2 := ticksAux_mem g upper _ x hx
    exact ⟨le_trans hlow h2.1, h2.2⟩
  · intro hle
    exact ticksAux_head g upper _ ⟨hg, hle⟩
  · exact ticksAux_chain g upper _

/-- Witness for claim C4 at lower = 0, upper = 1, explicit tick count 2. -/
theorem claim4_witness :
    List.Chain' (· < ·) (ticks 0 1 (some 2)) ∧
    (∀ x ∈ ticks 0 1 (some 2), (0 : ℚ) ≤ x ∧ x ≤ 1) ∧
    (-(ticksGrid 0 1 (some 2)) * ⌊-(0 : ℚ) / ticksGrid 0 1 (some 2)⌋ ≤ 1 →
      (ticks 0 1 (some 2)).head? =
        some (-(ticksGrid 0 1 (some 2)) * ⌊-(0 : ℚ) / ticksGrid 0 1 (some 2)⌋)) ∧
    List.Chain' (fun a b => b = a + ticksGrid 0 1 (some 2)) (ticks 0 1 (some 2)) :=
  claim4_ticks 0 1 (some 2) (by norm_num) (by norm_num)

/-- Truncation toward zero, modelling Python's `int()` and numpy's
`astype(np.int64)` on a finite value. -/
def intTrunc (q : ℚ) : ℤ := if 0 ≤ q then ⌊q⌋ else ⌈q⌉

/-- PolyLine._path: the point list `line` built for one pair of consecutive
points under the given drawstyle string, before the final toward-zero int
cast and dc.DrawLines call (device output).  An unknown drawstyle raises
ValueError, modelled as an error result. -/
def pathLine (coord1 coord2 : ℚ × ℚ) (drawstyle : String) :
    Except String (List (ℚ × ℚ)) :=
  if drawstyle = "line" then
    .ok [coord1, coord2]
  else if drawstyle = "steps-pre" then
    .ok [coord1, (coord1.1, coord2.2), coord2]
  else if drawstyle = "steps-post" then
    .ok [coord1, (coord2.1, coord1.2), coord2]
  else if drawstyle = "steps-mid-x" then
    let mid_x := (coord2.1 - coord1.1) / 2 + coord1.1
    .ok [coord1, (mid_x, coord1.2), (mid_x, coord2.2), coord2]
  else if drawstyle = "steps-mid-y" then
    let mid_y := (coord2.2 - coord1.2) / 2 + coord1.2
    .ok [coord1, (coord1.1, mid_y), (coord2.1, mid_y), coord2]
  else
    .error "Invalid drawstyle"

/-- The drawstyle strings accepted by PolyLine (`_drawstyles`). -/
def drawstyles : List String :=
  ["line", "steps-pre", "steps-post", "steps-mid-x", "steps-mid-y"]

/-- Claim C7: PolyLine._path expands a consecutive pair a, b per the
drawstyle table; steps-post inserts the intermediate point (b.x, a.y), so
(0,0),(1,1) becomes the segments (0,0)-(1,0) and (1,0)-(1,1); every
drawstyle outside the five known ones yields the ValueError case. -/
theorem claim7_path :
    (∀ a b : ℚ × ℚ, pathLine a b "steps-post" = .ok [a, (b.1, a.2), b]) ∧
    pathLine (0, 0) (1, 1) "steps-post" = .ok [(0, 0), (1, 0), (1, 1)] ∧
    (∀ s : String, s ∉ drawstyles →
      ∀ a b : ℚ × ℚ, pathLine a b s = .error "Invalid drawstyle") := by
  refine ⟨fun a b => rfl, rfl, ?_⟩
  intro s hs a b
  simp only [drawstyles, List.mem_cons, List.not_mem_nil, or_false, not_or] at hs
  obtain ⟨h1, h2, h3, h4, h5⟩ := hs
  simp [pathLine, h1, h2, h3, h4, h5]

/-- Witness for claim C7: the general steps-post row applied at ((2,3),(7,5))
and the invalid-drawstyle row applied at the string "dots". -/
theorem claim7_witness :
    pathLine (2, 3) (7, 5) "steps-post" = .ok [(2, 3), (7, 3), (7, 5)] ∧
    pathLine (2, 3) (7, 5) "dots" = .error "Invalid drawstyle" :=
  ⟨claim7_path.1 (2, 3) (7, 5),
   claim7_path.2.2 "dots" (by simp [drawstyles]) (2, 3) (7, 5)⟩

/-- PolyHistogram state built by a successful construction: heights, bin
edges, the paired bin intervals, and the derived (center, height) points. -/
structure HistogramData where
  hist : List ℚ
  binspec : List ℚ
  bins : List (ℚ × ℚ)
  points : List (ℚ × ℚ)
  deriving DecidableEq

/-- Adjacent pairs of a list, modelling `wx.lib.plot.utils.pairwise`. -/
def pairwiseAdj (l : List ℚ) : List (ℚ × ℚ) := l.zip l.tail

/-- PolyHistogram.__init__: rejects mismatched lengths with ValueError,
otherwise computes the bins and the bar-center points. -/
def mkPolyHistogram (hist binspec : List ℚ) : Except String HistogramData :=
  if binspec.length ≠ hist.length + 1 then
    .error "Len(binspec) must equal len(hist) + 1"
  else
    let bins := pairwiseAdj binspec
    let centers := bins.map (fun p => p.1 + (p.2 - p.1) / 2)
    .ok ⟨hist, binspec, bins, centers.zip hist⟩

/-- Claim C8: constructing a PolyHistogram with len(binspec) different from
len(hist) + 1 fails with ValueError — in particular hist = [1,2,3] with
binspec = [0,1,2] is rejected — and construction succeeds whenever the
lengths match. -/
theorem claim8_histogram (hist binspec : List ℚ)
    (h : binspec.length = hist.length + 1) :
    mkPolyHistogram [1, 2, 3] [0, 1, 2] =
      .error "Len(binspec) must equal len(hist) + 1" ∧
    (∃ d : HistogramData, mkPolyHistogram hist binspec = .ok d ∧
      d.hist = hist ∧ d.binspec = binspec) := by
  constructor
  · rfl
  · refine ⟨⟨hist, binspec, pairwiseAdj binspec,
      ((pairwiseAdj binspec).map (fun p => p.1 + (p.2 - p.1) / 2)).zip hist⟩,
      ?_, rfl, rfl⟩
    simp [mkPolyHistogram, h]

/-- Witness for claim C8 at hist = [1,2,3], binspec = [0,1,2,3]. -/
theorem claim8_witness :
    mkPolyHistogram [1, 2, 3] [0, 1, 2] =
      .error "Len(binspec) must equal len(hist) + 1" ∧
    (∃ d : HistogramData, mkPolyHistogram [1, 2, 3] [0, 1, 2, 3] = .ok d ∧
      d.hist = [1, 2, 3] ∧ d.binspec = [0, 1, 2, 3]) :=
  claim8_histogram [1, 2, 3] [0, 1, 2, 3] (by simp)

/-- The seven fields of a BPData record in namedtuple order, modelling
`np.concatenate((self._bpdata, self._outliers))`'s first component. -/
def bpdataList (bp : BPData) : List ℚ :=
  [bp.min, bp.low_whisker, bp.q25, bp.median, bp.q75, bp.high_whisker, bp.max]

/-- PolyBoxPlot object state after __init__: box width, X position, the
summary statistics, the outliers, the per-outlier jitter positions, and the
point array handed to PolyPoints.__init__. -/
structure PolyBoxPlot where
  box_width : ℚ
  xpos : ℚ
  bpdata : BPData
  outliers : List ℚ
  jitter : List ℚ
  points : List (ℚ × ℚ)
  deriving DecidableEq

/-- PolyBoxPlot.__init__: takes the raw (x, y) points and the values drawn
by `np.random.random_sample` (one uniform sample in [0, 1) per outlier,
injected here as the list randoms): xpos is the first point's x, the data is
the y column, the summary and outliers are computed once, and the jitter is
fixed at construction as `0.05 * random + xpos - 0.025`. -/
def mkPolyBoxPlot (pts : List (ℚ × ℚ)) (randoms : List ℚ) : PolyBoxPlot :=
  let xpos := (pts.headD (0, 0)).1
  let data := pts.map Prod.snd
  let bpdata := calcBpData data
  let outliers := calcOutliers bpdata data
  let bp_points := (bpdataList bpdata ++ outliers).map (fun v => (xpos, v))
  let jitter := (randoms.take outliers.length).map
    (fun r => 1/20 * r + xpos - 1/40)
  ⟨1/2, xpos, bpdata, outliers, jitter, bp_points⟩

/-- PolyBoxPlot.boundingBox: reads xpos, box_width and the stored summary;
returns the box and the (unchanged) object, making the absence of mutation
explicit. -/
def PolyBoxPlot.boundingBox (b : PolyBoxPlot) :
    ((ℚ × ℚ) × (ℚ × ℚ)) × PolyBoxPlot :=
  (((b.xpos - b.box_width / 2, b.bpdata.min * (19/20)),
    (b.xpos + b.box_width / 2, b.bpdata.max * (21/20))), b)

/-- PolyBoxPlot._draw_outliers: pairs the stored jitter with the outliers,
applies the current scale-and-shift, and produces the square marker
rectangles (size 0.5: offset 1.25, side 2.5, cast toward zero to int64)
that are handed to dc.DrawRectangleList; returns them with the (unchanged)
object. -/
def PolyBoxPlot.drawOutliers (b : PolyBoxPlot) (scale shift : ℚ × ℚ) :
    List (ℤ × ℤ × ℤ × ℤ) × PolyBoxPlot :=
  let pt_data := (b.jitter.zip b.outliers).map
    (fun p => (scale.1 * p.1 + shift.1, scale.2 * p.2 + shift.2))
  let rects := pt_data.map
    (fun p => (intTrunc (p.1 - 5/4), intTrunc (p.2 - 5/4),
               intTrunc (5/2 : ℚ), intTrunc (5/2 : ℚ)))
  (rects, b)

/-- Claim C9: the outlier jitter positions are fixed at construction inside
[xpos - 0.025, xpos + 0.025] (given uniform samples in [0, 1)), and
boundingBox and the outlier draw never modify the object — in particular the
jitter, the bounding box and the drawn outlier rectangles are identical
across two successive calls without reconstruction. -/
theorem claim9_jitter_stable (pts : List (ℚ × ℚ)) (randoms : List ℚ)
    (hr : ∀ r ∈ randoms, 0 ≤ r ∧ r < 1) :
    (∀ j ∈ (mkPolyBoxPlot pts randoms).jitter,
      (pts.headD (0, 0)).1 - 1/40 ≤ j ∧ j ≤ (pts.headD (0, 0)).1 + 1/40) ∧
    (∀ (b : PolyBoxPlot) (scale shift : ℚ × ℚ),
      (b.boundingBox).2 = b ∧
      (b.drawOutliers scale shift).2 = b ∧
      ((b.boundingBox).2.boundingBox).1 = (b.boundingBox).1 ∧
      ((b.boundingBox).2.boundingBox).2.jitter = b.jitter ∧
      ((b.drawOutliers scale shift).2.drawOutliers scale shift).1 =
        (b.drawOutliers scale shift).1) := by
  constructor
  · intro j hj
    simp only [mkPolyBoxPlot, List.mem_map] at hj
    obtain ⟨r, hrmem, rfl⟩ := hj
    have hr2 := hr r (List.take_subset _ _ hrmem)
    constructor <;> [linarith [hr2.1]; linarith [hr2.2]]
  · intro b scale shift
    exact ⟨rfl, rfl, rfl, rfl, rfl⟩

/-- Witness for claim C9 at a concrete two-point series and one sample. -/
theorem claim9_witness :
    (∀ j ∈ (mkPolyBoxPlot [(3, 1), (3, 2)] [1/2]).jitter,
      (([(3, 1), (3, 2)] : List (ℚ × ℚ)).headD (0, 0)).1 - 1/40 ≤ j ∧
      j ≤ (([(3, 1), (3, 2)] : List (ℚ × ℚ)).headD (0, 0)).1 + 1/40) ∧
    (∀ (b : PolyBoxPlot) (scale shift : ℚ × ℚ),
      (b.boundingBox).2 = b ∧
      (b.drawOutliers scale shift).2 = b ∧
      ((b.boundingBox).2.boundingBox).1 = (b.boundingBox).1 ∧
      ((b.boundingBox).2.boundingBox).2.jitter = b.jitter ∧
      ((b.drawOutliers scale shift).2.drawOutliers scale shift).1 =
        (b.drawOutliers scale shift).1) :=
  claim9_jitter_stable [(3, 1), (3, 2)] [1/2]
    (by intro r hr; simp at hr; constructor <;> simp [hr] <;> norm_num)

/-- PlotGraphics, reduced to the data the canvas model reads: the union
bounding box of the series (as ((minX, minY), (maxX, maxY))) and the
logScale flags the canvas writes onto it. -/
structure Graphics where
  boundingBox : (ℚ × ℚ) × (ℚ × ℚ)
  logScale : Bool × Bool
  deriving DecidableEq

/-- PlotCanvas state relevant to the modelled operations: the last_draw
snapshot (graphics plus the two stored axis ranges, each None after
SetLogScale), the two axis specs, and the log-scale flags.  The rendering
buffer, fonts and scrollbars are device state outside the model. -/
structure CanvasState where
  lastDraw : Option (Graphics × Option (ℚ × ℚ) × Option (ℚ × ℚ))
  xSpec : AxisSpec
  ySpec : AxisSpec
  logScale : Bool × Bool
  deriving DecidableEq

/-- Core of PlotCanvas._Draw as far as stored state is concerned: resolve
any missing axis range from the graphics bounding box via _axisInterval and
store the snapshot `(graphics, xAxis, yAxis)` in last_draw.  (`np.nan_to_num`
on given finite axes is the identity over ℚ.  The scale/shift, tick and
device drawing computations go to the DC and the transient transform and are
not part of the stored snapshot.) -/
def drawCore (st : CanvasState) (g : Graphics)
    (xAxis yAxis : Option (ℚ × ℚ)) : CanvasState :=
  let p1 := g.boundingBox.1
  let p2 := g.boundingBox.2
  let xA := xAxis.getD (axisInterval st.xSpec p1.1 p2.1)
  let yA := yAxis.getD (axisInterval st.ySpec p1.2 p2.2)
  { st with lastDraw := some (g, some xA, some yA) }

/-- PlotCanvas.Draw, the wrapper around _Draw: writes the canvas log flags
onto the graphics, silently returns when a requested axis range has zero
width, and log10-transforms a given range when the matching flag is set.
The base-10 logarithm of the float code is abstracted as the function
argument log10 (only applied on the non-degenerate path). -/
def Draw (log10 : ℚ → ℚ) (st : CanvasState) (g : Graphics)
    (xAxis yAxis : Option (ℚ × ℚ)) : CanvasState :=
  let g2 : Graphics := { g with logScale := st.logScale }
  match xAxis with
  | none =>
    match yAxis with
    | none => drawCore st g2 none none
    | some (c, d) =>
      if c = d then st
      else
        let yA := if st.logScale.2 then (log10 c, log10 d) else (c, d)
        drawCore st g2 none (some yA)
  | some (a, b) =>
    if a = b then st
    else
      let xA := if st.logScale.1 then (log10 a, log10 b) else (a, b)
      match yAxis with
      | none => drawCore st g2 (some xA) none
      | some (c, d) =>
        if c = d then st
        else
          let yA := if st.logScale.2 then (log10 c, log10 d) else (c, d)
          drawCore st g2 (some xA) (some yA)

/-- PlotCanvas.Zoom: no-op when nothing has been drawn; when the stored
snapshot has both axis ranges it recenters and rescales them and redraws
(storing the new ranges via _Draw); when a stored range is None (as after
SetLogScale) the source's tuple indexing raises TypeError, modelled as the
error value none. -/
def Zoom (st : CanvasState) (center ratio : ℚ × ℚ) : Option CanvasState :=
  match st.lastDraw with
  | none => some st
  | some (g, some xA, some yA) =>
    let x := center.1
    let y := center.2
    let dx := ((xA.1 + xA.2) / 2 - x) * ratio.1
    let dy := ((yA.1 + yA.2) / 2 - y) * ratio.2
    let w := (xA.2 - xA.1) * ratio.1
    let h := (yA.2 - yA.1) * ratio.2
    some (drawCore st g (some (x - w / 2 + dx, x + w / 2 + dx))
                        (some (y - h / 2 + dy, y + h / 2 + dy)))
  | some (_, _, _) => none

/-- PlotCanvas.SetLogScale on a (well-typed) 2-tuple of bools: when a plot
has been drawn, write the flags onto the stored graphics and blank both
stored axis ranges; then force both axis specs to 'min' and store the
flags. -/
def SetLogScale (st : CanvasState) (ls : Bool × Bool) : CanvasState :=
  let st2 :=
    match st.lastDraw with
    | none => st
    | some (g, _, _) =>
      { st with lastDraw := some ({ g with logScale := ls }, none, none) }
  { st2 with xSpec := .minspec, ySpec := .minspec, logScale := ls }

/-- A concrete graphics value for the zoom example of claim C5. -/
def zoomDemoGraphics : Graphics := ⟨((0, 0), (1, 1)), (false, false)⟩

/-- A concrete canvas state whose previous draw used the axis ranges
x:(-10,10), y:(-10,10), for the zoom example of claim C5. -/
def zoomDemoState : CanvasState :=
  ⟨some (zoomDemoGraphics, some (-10, 10), some (-10, 10)),
   .auto, .auto, (false, false)⟩

/-- Claim C5: given a previous draw with stored ranges x:(x0,x1), y:(y0,y1),
Zoom(center, ratio) stores for each axis the range
(c - w*r/2 + d, c + w*r/2 + d) with c the center component, w the old axis
width, r the ratio component and d = (mid(axis) - c) * r; in particular
Zoom((0,0), (1/2,1/2)) on x:(-10,10), y:(-10,10) yields x:(-5,5), y:(-5,5). -/
theorem claim5_zoom (st : CanvasState) (g : Graphics)
    (x0 x1 y0 y1 : ℚ) (center ratio : ℚ × ℚ)
    (h : st.lastDraw = some (g, some (x0, x1), some (y0, y1))) :
    (∃ st2 : CanvasState, Zoom st center ratio = some st2 ∧
      st2.lastDraw = some (g,
        some (center.1 - (x1 - x0) * ratio.1 / 2 + ((x0 + x1) / 2 - center.1) * ratio.1,
              center.1 + (x1 - x0) * ratio.1 / 2 + ((x0 + x1) / 2 - center.1) * ratio.1),
        some (center.2 - (y1 - y0) * ratio.2 / 2 + ((y0 + y1) / 2 - center.2) * ratio.2,
              center.2 + (y1 - y0) * ratio.2 / 2 + ((y0 + y1) / 2 - center.2) * ratio.2))) ∧
    (∃ st3 : CanvasState, Zoom zoomDemoState (0, 0) (1/2, 1/2) = some st3 ∧
      st3.lastDraw = some (zoomDemoGraphics, some (-5, 5), some (-5, 5))) := by
  constructor
  · simp only [Zoom, h]
    refine ⟨_, rfl, ?_⟩
    simp [drawCore]
  · simp only [Zoom, zoomDemoState]
    refine ⟨_, rfl, ?_⟩
    simp only [drawCore]
    norm_num

/-- Witness for claim C5 at the concrete state of the zoom example. -/
theorem claim5_witness :
    (∃ st2 : CanvasState, Zoom zoomDemoState (0, 0) (1/2, 1/2) = some st2 ∧
      st2.lastDraw = some (zoomDemoGraphics,
        some ((0 : ℚ) - (10 - -10) * (1/2) / 2 + ((-10 + 10) / 2 - 0) * (1/2),
              (0 : ℚ) + (10 - -10) * (1/2) / 2 + ((-10 + 10) / 2 - 0) * (1/2)),
        some ((0 : ℚ) - (10 - -10) * (1/2) / 2 + ((-10 + 10) / 2 - 0) * (1/2),
              (0 : ℚ) + (10 - -10) * (1/2) / 2 + ((-10 + 10) / 2 - 0) * (1/2)))) ∧
    (∃ st3 : CanvasState, Zoom zoomDemoState (0, 0) (1/2, 1/2) = some st3 ∧
      st3.lastDraw = some (zoomDemoGraphics, some (-5, 5), some (-5, 5))) :=
  claim5_zoom zoomDemoState zoomDemoGraphics (-10) 10 (-10) 10 (0, 0) (1/2, 1/2) rfl

/-- Claim C6: a Draw call with a requested axis range of zero width (on
either axis) returns the state unchanged: the Draw model is a total
function (nothing is raised), nothing is drawn, and the stored last_draw
snapshot — graphics and both axis ranges — is exactly what it was. -/
theorem claim6_degenerate_draw (log10 : ℚ → ℚ) (st : CanvasState)
    (g : Graphics) (xAxis yAxis : Option (ℚ × ℚ))
    (h : (∃ a, xAxis = some (a, a)) ∨ (∃ c, yAxis = some (c, c))) :
    Draw log10 st g xAxis yAxis = st := by
  rcases h with ⟨a, rfl⟩ | ⟨c, rfl⟩
  · simp [Draw]
  · cases xAxis with
    | none => simp [Draw]
    | some p =>
      obtain ⟨a, b⟩ := p
      by_cases hab : a = b <;> simp [Draw, hab]

/-- Witness for claim C6: a degenerate x range (2,2) at a concrete state
leaves the state untouched. -/
theorem claim6_witness :
    Draw (fun q => q) ⟨none, .auto, .auto, (false, false)⟩
      ⟨((0, 0), (1, 1)), (false, false)⟩ (some (2, 2)) none =
      ⟨none, .auto, .auto, (false, false)⟩ :=
  claim6_degenerate_draw (fun q => q) ⟨none, .auto, .auto, (false, false)⟩
    ⟨((0, 0), (1, 1)), (false, false)⟩ (some (2, 2)) none (Or.inl ⟨2, rfl⟩)

/-- Claim C10: SetLogScale with any 2-tuple of bools stores the flags,
forces both axis specs to 'min' (discarding any previous spec), and — when
a plot has been drawn — replaces both stored last_draw axis ranges with
None (so the next redraw re-derives the bounds), keeping the graphics with
the new flags written onto it. -/
theorem claim10_setlogscale (st : CanvasState) (ls : Bool × Bool) :
    (SetLogScale st ls).xSpec = .minspec ∧
    (SetLogScale st ls).ySpec = .minspec ∧
    (SetLogScale st ls).logScale = ls ∧
    (st.lastDraw = none → (SetLogScale st ls).lastDraw = none) ∧
    (∀ g xa ya, st.lastDraw = some (g, xa, ya) →
      (SetLogScale st ls).lastDraw =
        some ({ g with logScale := ls }, none, none)) := by
  cases hld : st.lastDraw with
  | none =>
    refine ⟨rfl, rfl, rfl, ?_, ?_⟩
    · intro h
      simp [SetLogScale, hld]
    · intro g2 xa2 ya2 heq
      simp at heq
  | some t =>
    obtain ⟨g, xa, ya⟩ := t
    refine ⟨rfl, rfl, rfl, ?_, ?_⟩
    · intro h
      simp at h
    · intro g2 xa2 ya2 heq
      obtain ⟨rfl, rfl, rfl⟩ : g = g2 ∧ xa = xa2 ∧ ya = ya2 := by
        simpa using heq
      simp [SetLogScale, hld]

/-- Witness for claim C10 at a concrete drawn state and flags (true, true). -/
theorem claim10_witness :
    (SetLogScale ⟨some (⟨((0, 0), (1, 1)), (false, false)⟩, some (1, 2), some (3, 4)),
        .auto, .auto, (false, false)⟩ (true, true)).xSpec = .minspec ∧
    (SetLogScale ⟨some (⟨((0, 0), (1, 1)), (false, false)⟩, some (1, 2), some (3, 4)),
        .auto, .auto, (false, false)⟩ (true, true)).ySpec = .minspec ∧
    (SetLogScale ⟨some (⟨((0, 0), (1, 1)), (false, false)⟩, some (1, 2), some (3, 4)),
        .auto, .auto, (false, false)⟩ (true, true)).logScale = (true, true) ∧
    ((⟨some (⟨((0, 0), (1, 1)), (false, false)⟩, some (1, 2), some (3, 4)),
        .auto, .auto, (false, false)⟩ : CanvasState).lastDraw = none →
      (SetLogScale ⟨some (⟨((0, 0), (1, 1)), (false, false)⟩, some (1, 2), some (3, 4)),
          .auto, .auto, (false, false)⟩ (true, true)).lastDraw = none) ∧
    (∀ g xa ya,
      (⟨some (⟨((0, 0), (1, 1)), (false, false)⟩, some (1, 2), some (3, 4)),
          .auto, .auto, (false, false)⟩ : CanvasState).lastDraw = some (g, xa, ya) →
      (SetLogScale ⟨some (⟨((0, 0), (1, 1)), (false, false)⟩, some (1, 2), some (3, 4)),
          .auto, .auto, (false, false)⟩ (true, true)).lastDraw =
        some ({ g with logScale := (true, true) }, none, none)) :=
  claim10_setlogscale
    ⟨some (⟨((0, 0), (1, 1)), (false, false)⟩, some (1, 2), some (3, 4)),
      .auto, .auto, (false, false)⟩ (true, true)

/-- The concrete sample of claim C1. -/
def boxSample : List ℚ := [1, 2, 3, 4, 5, 6, 7, 8, 9, 100]

/-- Claim C1, counterexample: on the sample [1,...,9,100] the median computed
by PolyBoxPlot.calcBpData is 5.5, a full unit away from the claimed 4.5
(4.5 is the interquartile range, not the median), so the claim as stated is
false at this input. -/
theorem claim1_counterexample :
    (calcBpData boxSample).median = 11 / 2 ∧
    (calcBpData boxSample).median - 9 / 2 = 1 := by
  norm_num [boxSample, calcBpData, percentile, sortAsc, insertAsc, listMin,
    listMax, Int.toNat]

/-- Claim C1 (amended): for the sample [1,2,3,4,5,6,7,8,9,100] the box-plot
summary computed by PolyBoxPlot.calcBpData has q25 = 3.25, q75 = 7.75 and
median = 5.5 (not 4.5), and calcOutliers classifies exactly the value 100 as
an outlier, because 100 > q75 + 1.5*IQR. -/
theorem claim1_boxplot_stats :
    (calcBpData boxSample).q25 = 13 / 4 ∧
    (calcBpData boxSample).q75 = 31 / 4 ∧
    (calcBpData boxSample).median = 11 / 2 ∧
    calcOutliers (calcBpData boxSample) boxSample = [100] ∧
    (100 : ℚ) > (calcBpData boxSample).q75 +
      3 / 2 * ((calcBpData boxSample).q75 - (calcBpData boxSample).q25) := by
  norm_num [boxSample, calcOutliers, calcBpData, percentile, sortAsc,
    insertAsc, listMin, listMax, Int.toNat, List.filter]

/-- Claim C2: for every transform state with nonzero scale on both components
and every point p, PositionScreenToUser (PositionUserToScreen p) = p: in the
exact rational model of the float arithmetic the two maps are exact inverses. -/
theorem claim2_roundtrip (t : PointTransform) (p : ℚ × ℚ)
    (h1 : t.scale.1 ≠ 0) (h2 : t.scale.2 ≠ 0) :
    PositionScreenToUser t (PositionUserToScreen t p) = p := by
  obtain ⟨⟨sx, sy⟩, ⟨tx, ty⟩⟩ := t
  obtain ⟨px, py⟩ := p
  simp only [PositionUserToScreen, PositionScreenToUser] at *
  refine Prod.ext ?_ ?_ <;> field_simp

/-- Witness for claim C2 at the concrete transform scale (2,3), shift (5,7)
and point (1,4). -/
theorem claim2_witness :
    PositionScreenToUser ⟨(2, 3), (5, 7)⟩
      (PositionUserToScreen ⟨(2, 3), (5, 7)⟩ (1, 4)) = (1, 4) :=
  claim2_roundtrip ⟨(2, 3), (5, 7)⟩ (1, 4) two_ne_zero three_ne_zero

end Wxplot
